import Mathlib

/-!
Shallow embedding of the role-based task/project management API
(Express + Prisma routes: tasks, projects, comments, labels, dashboard).

Ids are `Nat`, timestamps are `Nat`, strings are `String`.
Prisma `where` objects are embedded as explicit structures whose fields are
assigned sequentially, exactly as the route handlers mutate the JS object
(so a later assignment to the same key overwrites an earlier one, as in JS).
-/

namespace QLXD

inductive Role where
  | ADMIN
  | MANAGER
  | MEMBER
deriving DecidableEq, Repr

inductive Status where
  | BACKLOG
  | IN_PROGRESS
  | DONE
deriving DecidableEq, Repr

inductive Priority where
  | LOW
  | MEDIUM
  | HIGH
  | URGENT
deriving DecidableEq, Repr

structure User where
  id : Nat
  name : String
  email : String
  role : Role
deriving DecidableEq, Repr

structure Project where
  id : Nat
  name : String
  description : Option String
  ownerId : Nat
deriving DecidableEq, Repr

structure Task where
  id : Nat
  title : String
  description : Option String
  status : Status
  priority : Priority
  dueDate : Option Nat
  assigneeId : Option Nat
  projectId : Nat
  labelIds : List Nat
deriving DecidableEq, Repr

structure Label where
  id : Nat
  name : String
  color : String
  projectId : Nat
deriving DecidableEq, Repr

structure Comment where
  id : Nat
  content : String
  taskId : Nat
  authorId : Nat
deriving DecidableEq, Repr

/-- The storage collaborator's state: the record tables the routes query. -/
structure DB where
  projects : List Project
  tasks : List Task
  labels : List Label
  comments : List Comment
deriving DecidableEq, Repr

/-- Outcome of an operation, as the routes distinguish them
(200/201/204 vs 404 vs 403). -/
inductive Outcome (α : Type) where
  | ok (a : α)
  | notFound
  | forbidden
deriving DecidableEq, Repr

/-- `prisma.xxx.findUnique({ where: { id } })` on each table. -/
def findProject (db : DB) (id : Nat) : Option Project :=
  db.projects.find? (fun p => p.id == id)

def findTask (db : DB) (id : Nat) : Option Task :=
  db.tasks.find? (fun t => t.id == id)

def findComment (db : DB) (id : Nat) : Option Comment :=
  db.comments.find? (fun c => c.id == id)

/-- `task.project.ownerId` (the `include: { project: { select: { ownerId } } }`
join on a loaded task). -/
def projectOwner (db : DB) (projectId : Nat) : Option Nat :=
  (findProject db projectId).map (fun p => p.ownerId)

/-- `prisma.project.findMany({ where: { ownerId }, select: { id } })` —
the ids of the projects the caller owns. -/
def ownedProjectIds (db : DB) (uid : Nat) : List Nat :=
  (db.projects.filter (fun p => p.ownerId == uid)).map (fun p => p.id)

/-- `prisma.task.findMany({ where: { assigneeId }, select: { projectId },
distinct: ['projectId'] })` — the ids of projects holding a task assigned to
the caller (distinctness does not change membership). -/
def taskProjectIds (db : DB) (uid : Nat) : List Nat :=
  (db.tasks.filter (fun t => t.assigneeId == some uid)).map (fun t => t.projectId)

/-- Does `pat` occur at the head of `hay`? -/
def headMatch : List Char → List Char → Bool
  | [], _ => true
  | _ :: _, [] => false
  | p :: ps, c :: cs => p == c && headMatch ps cs

/-- Does `pat` occur anywhere in `hay`? -/
def hasSub (pat : List Char) : List Char → Bool
  | [] => headMatch pat []
  | c :: cs => headMatch pat (c :: cs) || hasSub pat cs

/-- The characters of a string, lower-cased. -/
def lowerChars (s : String) : List Char :=
  s.data.map Char.toLower

/-- Prisma `{ contains: pat, mode: 'insensitive' }` on a string column. -/
def strContainsCI (hay pat : String) : Bool :=
  hasSub (lowerChars pat) (lowerChars hay)

/-- Prisma `{ contains: pat, mode: 'insensitive' }` on a nullable string
column: a NULL column never matches. -/
def optContainsCI (hay : Option String) (pat : String) : Bool :=
  match hay with
  | none => false
  | some h => strContainsCI h pat

/-- Evaluate an optional `where` key: an absent key constrains nothing. -/
def optCheck {α : Type} (o : Option α) (p : α → Bool) : Bool :=
  match o with
  | none => true
  | some a => p a

/-! ## Task list `where` object (routes/tasks.ts, GET /) -/

/-- One disjunct of a Prisma `OR: [...]` list on the task table. -/
inductive TaskCond where
  | titleContains (s : String)
  | descContains (s : String)
  | projectIn (ids : List Nat)
  | assigneeEq (uid : Nat)
deriving DecidableEq, Repr

/-- The `where` object the task list handler builds: each field is one JS
object key; `orClause` is the single `OR` key (a later assignment to `OR`
replaces an earlier one). -/
structure TaskWhere where
  status : Option Status := none
  priority : Option Priority := none
  assigneeId : Option Nat := none
  projectId : Option Nat := none
  dueGte : Option Nat := none
  dueLte : Option Nat := none
  labelsSome : Option (List Nat) := none
  orClause : Option (List TaskCond) := none
deriving DecidableEq, Repr

/-- The validated query filters of GET /api/tasks (taskQuerySchema), less
page/limit/sort. -/
structure TaskFilters where
  status : Option Status := none
  priority : Option Priority := none
  assigneeId : Option Nat := none
  projectId : Option Nat := none
  labelIds : Option (List Nat) := none
  search : Option String := none
  startDate : Option Nat := none
  endDate : Option Nat := none
deriving DecidableEq, Repr

def taskCondHolds (t : Task) : TaskCond → Bool
  | .titleContains s => strContainsCI t.title s
  | .descContains s => optContainsCI t.description s
  | .projectIn ids => ids.contains t.projectId
  | .assigneeEq uid => t.assigneeId == some uid

/-- Does a task row satisfy the `where` object? Conjunction of all present
keys; the `OR` key holds when some listed disjunct holds; the `dueDate`
range keys never match a NULL due date. -/
def taskMatchesWhere (w : TaskWhere) (t : Task) : Bool :=
  optCheck w.status (fun s => t.status == s) &&
  optCheck w.priority (fun p => t.priority == p) &&
  optCheck w.assigneeId (fun a => t.assigneeId == some a) &&
  optCheck w.projectId (fun p => t.projectId == p) &&
  (match w.dueGte, w.dueLte with
   | none, none => true
   | g, l =>
     match t.dueDate with
     | none => false
     | some d => optCheck g (fun x => x ≤ d) && optCheck l (fun x => d ≤ x)) &&
  optCheck w.labelsSome (fun ids => t.labelIds.any (fun lid => ids.contains lid)) &&
  optCheck w.orClause (fun conds => conds.any (taskCondHolds t))

/-- The task list handler's `where` construction, statement by statement:
requested filters first (search sets `OR`), then the role-based filtering,
which for MEMBER assigns `assigneeId` and for MANAGER assigns `OR`
(overwriting any value those keys already held, as assignment does in JS). -/
def buildTaskWhere (db : DB) (uid : Nat) (role : Role) (f : TaskFilters) : TaskWhere :=
  let w : TaskWhere := {}
  let w := match f.status with
    | some s => { w with status := some s }
    | none => w
  let w := match f.priority with
    | some p => { w with priority := some p }
    | none => w
  let w := match f.assigneeId with
    | some a => { w with assigneeId := some a }
    | none => w
  let w := match f.projectId with
    | some p => { w with projectId := some p }
    | none => w
  let w := match f.startDate with
    | some s => { w with dueGte := some s }
    | none => w
  let w := match f.endDate with
    | some e => { w with dueLte := some e }
    | none => w
  let w := match f.search with
    | some s =>
      if s.isEmpty then w
      else { w with orClause := some [.titleContains s, .descContains s] }
    | none => w
  let w := match f.labelIds with
    | some ids => if ids.isEmpty then w else { w with labelsSome := some ids }
    | none => w
  match role with
  | .MEMBER => { w with assigneeId := some uid }
  | .MANAGER =>
    { w with orClause := some [.projectIn (ownedProjectIds db uid), .assigneeEq uid] }
  | .ADMIN => w

/-- The scoped task set: every task row satisfying the built `where`
(the set `findMany`/`count` range over, before skip/take). -/
def scopedTasks (db : DB) (uid : Nat) (role : Role) (f : TaskFilters) : List Task :=
  db.tasks.filter (taskMatchesWhere (buildTaskWhere db uid role f))

/-- The `{ data, meta }` shape of a list response. -/
structure ListResult (α : Type) where
  data : List α
  page : Nat
  limit : Nat
  total : Nat
  totalPages : Nat
deriving DecidableEq, Repr

/-- zod `z.coerce.number().min(1).max(100).default(10)` for `limit`:
absent means 10; out-of-range is rejected (validation error, request never
reaches the handler). -/
def parseLimit : Option Nat → Option Nat
  | none => some 10
  | some n => if 1 ≤ n ∧ n ≤ 100 then some n else none

/-- zod `z.coerce.number().min(1).default(1)` for `page`. -/
def parsePage : Option Nat → Option Nat
  | none => some 1
  | some n => if 1 ≤ n then some n else none

/-- GET /api/tasks: build the `where`, fetch the page
(`skip = (page-1)*limit`, `take = limit`), `count` with the same `where`,
and report `totalPages = Math.ceil(total / limit)`. -/
def listTasks (db : DB) (uid : Nat) (role : Role) (f : TaskFilters)
    (page limit : Nat) : ListResult Task :=
  let rows := scopedTasks db uid role f
  let total := rows.length
  { data := (rows.drop ((page - 1) * limit)).take limit
    page := page
    limit := limit
    total := total
    totalPages := (total + limit - 1) / limit }

/-! ## Project list `where` object (routes/projects.ts, GET /) -/

/-- One disjunct of a Prisma `OR: [...]` list on the project table. -/
inductive ProjCond where
  | nameContains (s : String)
  | descContains (s : String)
  | ownerEq (uid : Nat)
  | idIn (ids : List Nat)
deriving DecidableEq, Repr

/-- The `where` object the project list handler builds. -/
structure ProjWhere where
  ownerId : Option Nat := none
  idIn : Option (List Nat) := none
  orClause : Option (List ProjCond) := none
deriving DecidableEq, Repr

/-- The validated query filters of GET /api/projects (projectQuerySchema),
less page/limit. -/
structure ProjectFilters where
  search : Option String := none
  ownerId : Option Nat := none
deriving DecidableEq, Repr

def projCondHolds (p : Project) : ProjCond → Bool
  | .nameContains s => strContainsCI p.name s
  | .descContains s => optContainsCI p.description s
  | .ownerEq uid => p.ownerId == uid
  | .idIn ids => ids.contains p.id

def projMatchesWhere (w : ProjWhere) (p : Project) : Bool :=
  optCheck w.ownerId (fun o => p.ownerId == o) &&
  optCheck w.idIn (fun ids => ids.contains p.id) &&
  optCheck w.orClause (fun conds => conds.any (projCondHolds p))

/-- The project list handler's `where` construction: search sets `OR`, then
the requested `ownerId`, then the role-based filtering — MEMBER assigns the
`id: { in: … }` key, MANAGER assigns `OR` (overwriting any value the key
already held, as assignment does in JS). -/
def buildProjectWhere (db : DB) (uid : Nat) (role : Role) (f : ProjectFilters) : ProjWhere :=
  let w : ProjWhere := {}
  let w := match f.search with
    | some s =>
      if s.isEmpty then w
      else { w with orClause := some [.nameContains s, .descContains s] }
    | none => w
  let w := match f.ownerId with
    | some o => { w with ownerId := some o }
    | none => w
  match role with
  | .MEMBER => { w with idIn := some (taskProjectIds db uid) }
  | .MANAGER =>
    { w with orClause := some [.ownerEq uid, .idIn (taskProjectIds db uid)] }
  | .ADMIN => w

def scopedProjects (db : DB) (uid : Nat) (role : Role) (f : ProjectFilters) : List Project :=
  db.projects.filter (projMatchesWhere (buildProjectWhere db uid role f))

/-- GET /api/projects: same fetch/count/meta shape as the task list. -/
def listProjects (db : DB) (uid : Nat) (role : Role) (f : ProjectFilters)
    (page limit : Nat) : ListResult Project :=
  let rows := scopedProjects db uid role f
  let total := rows.length
  { data := (rows.drop ((page - 1) * limit)).take limit
    page := page
    limit := limit
    total := total
    totalPages := (total + limit - 1) / limit }

/-! ## Dashboard statistics (routes/dashboard.ts, GET /stats) -/

/-- The dashboard handler's `taskWhere` object: role-based filtering only
(no requested filters exist on this endpoint). -/
def dashboardTaskWhere (db : DB) (uid : Nat) (role : Role) : TaskWhere :=
  match role with
  | .MEMBER => { assigneeId := some uid }
  | .MANAGER =>
    { orClause := some [.projectIn (ownedProjectIds db uid), .assigneeEq uid] }
  | .ADMIN => {}

/-- `prisma.task.count({ where: taskWhere })` — the dashboard's `totalTasks`. -/
def dashboardTotalTasks (db : DB) (uid : Nat) (role : Role) : Nat :=
  (db.tasks.filter (taskMatchesWhere (dashboardTaskWhere db uid role))).length

/-! ## Task create / update / delete (routes/tasks.ts) -/

/-- The validated body of POST /api/tasks (createTaskSchema). -/
structure CreateTaskPayload where
  title : String
  description : Option String := none
  status : Option Status := none
  priority : Option Priority := none
  dueDate : Option Nat := none
  assigneeId : Option Nat := none
  projectId : Nat
  labelIds : Option (List Nat) := none
deriving DecidableEq, Repr

/-- POST /api/tasks: `requireRole(['ADMIN','MANAGER'])` gate, then the
referenced project is looked up (404 when absent), then a MANAGER must own
it (403), then the row is inserted with defaults BACKLOG / MEDIUM.
`newId` is the id the storage layer mints for the new row. -/
def createTask (db : DB) (uid : Nat) (role : Role) (p : CreateTaskPayload)
    (newId : Nat) : Outcome Task × DB :=
  if role = .ADMIN ∨ role = .MANAGER then
    match findProject db p.projectId with
    | none => (.notFound, db)
    | some proj =>
      if role = .MANAGER ∧ proj.ownerId ≠ uid then (.forbidden, db)
      else
        let t : Task :=
          { id := newId
            title := p.title
            description := p.description
            status := p.status.getD .BACKLOG
            priority := p.priority.getD .MEDIUM
            dueDate := p.dueDate
            assigneeId := p.assigneeId
            projectId := p.projectId
            labelIds := p.labelIds.getD [] }
        (.ok t, { db with tasks := db.tasks ++ [t] })
  else (.forbidden, db)

/-- The validated body of PUT /api/tasks/:id (updateTaskSchema): every field
optional. -/
structure TaskUpdatePayload where
  title : Option String := none
  description : Option String := none
  status : Option Status := none
  priority : Option Priority := none
  dueDate : Option Nat := none
  assigneeId : Option Nat := none
  labelIds : Option (List Nat) := none
deriving DecidableEq, Repr

/-- The `data` object of `prisma.task.update` in PUT /api/tasks/:id.
An `undefined` field (payload `none`) leaves the column unchanged — except
`dueDate`, which the handler passes as `dueDate ? new Date(dueDate) : null`,
so an absent `dueDate` writes NULL; a present `labelIds` replaces the whole
association set (`deleteMany` then `create`). -/
def applyTaskUpdate (t : Task) (p : TaskUpdatePayload) : Task :=
  { t with
    title := match p.title with
      | some s => s
      | none => t.title
    description := match p.description with
      | some d => some d
      | none => t.description
    status := match p.status with
      | some s => s
      | none => t.status
    priority := match p.priority with
      | some pr => pr
      | none => t.priority
    dueDate := match p.dueDate with
      | some d => some d
      | none => none
    assigneeId := match p.assigneeId with
      | some a => some a
      | none => t.assigneeId
    labelIds := match p.labelIds with
      | some ids => ids
      | none => t.labelIds }

/-- PUT /api/tasks/:id: fetch the task (404 when absent); a MEMBER must be
its assignee, a MANAGER its project's owner or its assignee (else 403);
then the partial update is applied. No `requireRole` gate exists on this
route. -/
def updateTask (db : DB) (uid : Nat) (role : Role) (id : Nat)
    (p : TaskUpdatePayload) : Outcome Task × DB :=
  match findTask db id with
  | none => (.notFound, db)
  | some t =>
    if role = .MEMBER ∧ t.assigneeId ≠ some uid then (.forbidden, db)
    else if role = .MANAGER ∧ projectOwner db t.projectId ≠ some uid ∧
        t.assigneeId ≠ some uid then (.forbidden, db)
    else
      let t' := applyTaskUpdate t p
      (.ok t', { db with tasks := db.tasks.map (fun x => if x.id = id then t' else x) })

/-- DELETE /api/tasks/:id: `requireRole(['ADMIN','MANAGER'])` gate, fetch
(404 when absent); a MANAGER must own the task's project (else 403 — being
the assignee does not help here); deletion cascades to the task's comments
and label links. -/
def deleteTask (db : DB) (uid : Nat) (role : Role) (id : Nat) : Outcome Unit × DB :=
  if role = .ADMIN ∨ role = .MANAGER then
    match findTask db id with
    | none => (.notFound, db)
    | some t =>
      if role = .MANAGER ∧ projectOwner db t.projectId ≠ some uid then (.forbidden, db)
      else
        (.ok (),
         { db with
             tasks := db.tasks.filter (fun x => x.id ≠ id)
             comments := db.comments.filter (fun c => c.taskId ≠ id) })
  else (.forbidden, db)

/-! ## Comments (routes/comments.ts) -/

/-- POST /api/comments: only `authenticateToken` guards this route — there
is no role gate, no lookup of the referenced task, and no visibility check;
the row is inserted with the caller as author. -/
def createComment (db : DB) (uid : Nat) (role : Role) (content : String)
    (taskId : Nat) (newId : Nat) : Outcome Comment × DB :=
  let c : Comment := { id := newId, content := content, taskId := taskId, authorId := uid }
  (.ok c, { db with comments := db.comments ++ [c] })

/-- PUT /api/comments/:id: fetch (404 when absent); only the author may
update, whatever the caller's role. -/
def updateComment (db : DB) (uid : Nat) (role : Role) (id : Nat)
    (content : String) : Outcome Comment × DB :=
  match findComment db id with
  | none => (.notFound, db)
  | some c =>
    if c.authorId ≠ uid then (.forbidden, db)
    else
      let c' := { c with content := content }
      (.ok c', { db with comments := db.comments.map (fun x => if x.id = id then c' else x) })

/-- DELETE /api/comments/:id: fetch (404 when absent); only the author may
delete, whatever the caller's role. -/
def deleteComment (db : DB) (uid : Nat) (role : Role) (id : Nat) : Outcome Unit × DB :=
  match findComment db id with
  | none => (.notFound, db)
  | some c =>
    if c.authorId ≠ uid then (.forbidden, db)
    else (.ok (), { db with comments := db.comments.filter (fun x => x.id ≠ id) })

/-! ## Labels (routes/labels.ts) -/

/-- Insert a label into a name-sorted list, keeping it sorted. -/
def insertByName (l : Label) : List Label → List Label
  | [] => [l]
  | x :: xs => if l.name ≤ x.name then l :: x :: xs else x :: insertByName l xs

/-- `orderBy: { name: 'asc' }` on a list of labels. -/
def sortByName : List Label → List Label
  | [] => []
  | x :: xs => insertByName x (sortByName xs)

/-- GET /api/labels/project/:projectId: only `authenticateToken` guards this
route — every label of the project, sorted by name ascending, with no role
restriction and no project-visibility scoping. -/
def listProjectLabels (db : DB) (uid : Nat) (role : Role) (projectId : Nat) : List Label :=
  sortByName (db.labels.filter (fun l => l.projectId == projectId))

/-! ## Helper lemmas -/

theorem mem_insertByName (a l : Label) (xs : List Label) :
    a ∈ insertByName l xs ↔ a = l ∨ a ∈ xs := by
  induction xs with
  | nil => simp [insertByName]
  | cons x xs ih =>
    simp only [insertByName]
    split
    · simp [List.mem_cons]
    · simp only [List.mem_cons, ih]
      tauto

theorem mem_sortByName (a : Label) (xs : List Label) :
    a ∈ sortByName xs ↔ a ∈ xs := by
  induction xs with
  | nil => simp [sortByName]
  | cons x xs ih =>
    simp only [sortByName, mem_insertByName, List.mem_cons, ih]

theorem sorted_insertByName (l : Label) (xs : List Label)
    (h : List.Pairwise (fun a b => a.name ≤ b.name) xs) :
    List.Pairwise (fun a b => a.name ≤ b.name) (insertByName l xs) := by
  induction xs with
  | nil => simp [insertByName]
  | cons x xs ih =>
    rcases List.pairwise_cons.mp h with ⟨hx, hxs⟩
    simp only [insertByName]
    split
    · rename_i hle
      refine List.pairwise_cons.mpr ⟨?_, h⟩
      intro b hb
      rcases List.mem_cons.mp hb with rfl | hb
      · exact hle
      · exact le_trans hle (hx b hb)
    · rename_i hle
      refine List.pairwise_cons.mpr ⟨?_, ih hxs⟩
      intro b hb
      rcases (mem_insertByName b l xs).mp hb with rfl | hb
      · exact le_of_not_le hle
      · exact hx b hb

theorem sorted_sortByName (xs : List Label) :
    List.Pairwise (fun a b => a.name ≤ b.name) (sortByName xs) := by
  induction xs with
  | nil => simp [sortByName]
  | cons x xs ih => exact sorted_insertByName x (sortByName xs) ih

/-! ## Claims -/

/-- C2: for a MEMBER caller with no requested filters, a task is in the
scoped task-list set exactly when it is stored and assigned to the caller,
and every task on any returned page is stored and assigned to the caller. -/
theorem task_list_member_scope (db : DB) (uid : Nat) (t : Task) :
    (t ∈ scopedTasks db uid .MEMBER {} ↔ t ∈ db.tasks ∧ t.assigneeId = some uid) ∧
    (∀ page limit t2, t2 ∈ (listTasks db uid .MEMBER {} page limit).data →
      t2 ∈ db.tasks ∧ t2.assigneeId = some uid) := by
  constructor
  · simp [scopedTasks, buildTaskWhere, taskMatchesWhere, optCheck, List.mem_filter]
  · intro page limit t2 ht2
    simp only [listTasks] at ht2
    have hmem : t2 ∈ scopedTasks db uid .MEMBER {} :=
      List.mem_of_mem_drop (List.mem_of_mem_take ht2)
    simpa [scopedTasks, buildTaskWhere, taskMatchesWhere, optCheck,
      List.mem_filter] using hmem

/-- C3: the dashboard's role-scoped task `where` is the task list's `where`
with empty filters, so `totalTasks` equals the task list's reported total. -/
theorem dashboard_total_matches_task_list (db : DB) (uid : Nat) (role : Role) :
    dashboardTaskWhere db uid role = buildTaskWhere db uid role {} ∧
    dashboardTotalTasks db uid role = (listTasks db uid role {} 1 10).total := by
  have h : dashboardTaskWhere db uid role = buildTaskWhere db uid role {} := by
    cases role <;> rfl
  exact ⟨h, by simp [dashboardTotalTasks, listTasks, scopedTasks, h]⟩

/-- C9: comment creation has no role gate, no task-existence pre-check and
no visibility check: for any caller of any role and any `taskId` (even one
naming no stored task) it succeeds, never returning Forbidden, and the
caller's role does not influence the outcome. -/
theorem comment_create_ungated (db : DB) (uid : Nat) (role : Role)
    (content : String) (taskId newId : Nat) :
    (createComment db uid role content taskId newId).1 ≠ Outcome.forbidden ∧
    createComment db uid role content taskId newId =
      (Outcome.ok { id := newId, content := content, taskId := taskId, authorId := uid },
       { db with comments :=
           db.comments ++ [{ id := newId, content := content, taskId := taskId, authorId := uid }] }) ∧
    createComment db uid role content taskId newId =
      createComment db uid .MEMBER content taskId newId := by
  refine ⟨?_, rfl, rfl⟩
  simp [createComment]

/-- C10: the per-project label listing returns exactly the labels of the
requested project, sorted by name ascending, identically for every caller
id and role (no role restriction, no visibility scoping). -/
theorem label_list_unscoped (db : DB) (uid : Nat) (role : Role) (pid : Nat) :
    (∀ l : Label, l ∈ listProjectLabels db uid role pid ↔
      l ∈ db.labels ∧ l.projectId = pid) ∧
    List.Pairwise (fun a b => a.name ≤ b.name) (listProjectLabels db uid role pid) ∧
    (∀ uid2 role2, listProjectLabels db uid role pid = listProjectLabels db uid2 role2 pid) := by
  refine ⟨?_, sorted_sortByName _, fun _ _ => rfl⟩
  intro l
  rw [listProjectLabels, mem_sortByName]
  simp [List.mem_filter]

/-- C4: on an existing comment, update and delete succeed exactly when the
caller is the author, whatever the caller's role; a non-author (ADMIN
included) gets Forbidden and the storage state is unchanged. -/
theorem comment_mutation_author_only (db : DB) (uid : Nat) (role : Role)
    (cid : Nat) (content : String) (c : Comment)
    (h : findComment db cid = some c) :
    ((updateComment db uid role cid content).1 =
        Outcome.ok { c with content := content } ↔ uid = c.authorId) ∧
    (uid ≠ c.authorId → updateComment db uid role cid content = (Outcome.forbidden, db)) ∧
    ((deleteComment db uid role cid).1 = Outcome.ok () ↔ uid = c.authorId) ∧
    (uid ≠ c.authorId → deleteComment db uid role cid = (Outcome.forbidden, db)) := by
  by_cases hc : c.authorId = uid
  · subst hc
    simp [updateComment, deleteComment, h]
  · have hc2 : uid ≠ c.authorId := fun e => hc e.symm
    simp [updateComment, deleteComment, h, hc, hc2]

def c4comment : Comment := { id := 5, content := "hello", taskId := 1, authorId := 7 }

def c4db : DB := { projects := [], tasks := [], labels := [], comments := [c4comment] }

/-- C4 witness: an ADMIN caller (id 9) who is not the author of comment 5
is denied update and delete, and the storage state is unchanged. -/
theorem comment_mutation_author_only_witness :
    ((updateComment c4db 9 .ADMIN 5 "edited").1 =
        Outcome.ok { c4comment with content := "edited" } ↔ 9 = c4comment.authorId) ∧
    ((9 : Nat) ≠ c4comment.authorId →
      updateComment c4db 9 .ADMIN 5 "edited" = (Outcome.forbidden, c4db)) ∧
    ((deleteComment c4db 9 .ADMIN 5).1 = Outcome.ok () ↔ 9 = c4comment.authorId) ∧
    ((9 : Nat) ≠ c4comment.authorId →
      deleteComment c4db 9 .ADMIN 5 = (Outcome.forbidden, c4db)) :=
  comment_mutation_author_only c4db 9 .ADMIN 5 "edited" c4comment rfl

def c6task : Task :=
  { id := 1, title := "t", description := none, status := .BACKLOG,
    priority := .MEDIUM, dueDate := none, assigneeId := some 2,
    projectId := 10, labelIds := [] }

def c6db : DB :=
  { projects := [{ id := 10, name := "P", description := none, ownerId := 1 }]
    tasks := [c6task]
    labels := []
    comments := [] }

/-- C6 counterexample: manager 2 is the assignee of task 1 but not the
owner of its project (owner is user 1); the delete operation returns
Forbidden, so being the assignee does not permit a MANAGER to delete. -/
theorem task_delete_manager_assignee_denied :
    findTask c6db 1 = some c6task ∧
    c6task.assigneeId = some 2 ∧
    projectOwner c6db c6task.projectId = some 1 ∧
    deleteTask c6db 2 .MANAGER 1 = (Outcome.forbidden, c6db) := by
  refine ⟨rfl, rfl, rfl, rfl⟩

/-- C6 amended: the task delete operation for a MANAGER requires project
ownership only — it succeeds exactly when the MANAGER owns the task's
project, and otherwise (assignee or not) returns Forbidden leaving storage
unchanged. -/
theorem task_delete_manager_owner_only (db : DB) (uid tid : Nat) (t : Task)
    (h : findTask db tid = some t) :
    ((deleteTask db uid .MANAGER tid).1 = Outcome.ok () ↔
      projectOwner db t.projectId = some uid) ∧
    (projectOwner db t.projectId ≠ some uid →
      deleteTask db uid .MANAGER tid = (Outcome.forbidden, db)) := by
  by_cases ho : projectOwner db t.projectId = some uid
  · simp [deleteTask, h, ho]
  · simp [deleteTask, h, ho]

/-- C6 amended witness: manager 1 owns project 10, so deleting task 1
succeeds for them. -/
theorem task_delete_manager_owner_only_witness :
    ((deleteTask c6db 1 .MANAGER 1).1 = Outcome.ok () ↔
      projectOwner c6db c6task.projectId = some 1) ∧
    (projectOwner c6db c6task.projectId ≠ some 1 →
      deleteTask c6db 1 .MANAGER 1 = (Outcome.forbidden, c6db)) :=
  task_delete_manager_owner_only c6db 1 1 c6task rfl

/-- C7: task creation (for a gate-passing ADMIN or MANAGER caller) returns
NotFound when the referenced project is absent — for any role, so the
existence check precedes the ownership check — and Forbidden for a MANAGER
who does not own the existing project; in both cases storage is unchanged,
so no task row is inserted. -/
theorem task_create_parent_checks (db : DB) (uid : Nat) (role : Role)
    (p : CreateTaskPayload) (newId : Nat)
    (hrole : role = .ADMIN ∨ role = .MANAGER) :
    (findProject db p.projectId = none →
      createTask db uid role p newId = (Outcome.notFound, db)) ∧
    (∀ proj, findProject db p.projectId = some proj → role = .MANAGER →
      proj.ownerId ≠ uid → createTask db uid role p newId = (Outcome.forbidden, db)) := by
  constructor
  · intro hnone
    simp [createTask, hrole, hnone]
  · intro proj hsome hm hown
    simp [createTask, hrole, hsome, hm, hown]

def c7db : DB :=
  { projects := [{ id := 10, name := "P1", description := none, ownerId := 1 }]
    tasks := []
    labels := []
    comments := [] }

def c7payload : CreateTaskPayload := { title := "T", projectId := 10 }

/-- C7 witness: the spec scenario — project P1 (id 10) is owned by user 1;
manager 2 attempting to create a task in it is denied. -/
theorem task_create_parent_checks_witness :
    (findProject c7db c7payload.projectId = none →
      createTask c7db 2 .MANAGER c7payload 99 = (Outcome.notFound, c7db)) ∧
    (∀ proj, findProject c7db c7payload.projectId = some proj →
      Role.MANAGER = Role.MANAGER → proj.ownerId ≠ 2 →
      createTask c7db 2 .MANAGER c7payload 99 = (Outcome.forbidden, c7db)) :=
  task_create_parent_checks c7db 2 .MANAGER c7payload 99 (Or.inr rfl)

def c1proj : Project :=
  { id := 10, name := "Alpha project", description := none, ownerId := 1 }

def c1task : Task :=
  { id := 1, title := "alpha", description := none, status := .BACKLOG,
    priority := .MEDIUM, dueDate := none, assigneeId := none,
    projectId := 10, labelIds := [] }

def c1db : DB :=
  { projects := [c1proj], tasks := [c1task], labels := [], comments := [] }

/-- C1: counter to the stated composition rule, when a MANAGER caller
requests a search, the role restriction's `OR` assignment overwrites the
search's `OR` clause: task 1 and project 10 match neither title/name nor
description for search "zzz", yet both appear in manager 1's list results,
and the built task `where` carries only the role disjunction. -/
theorem manager_search_clause_overwritten :
    strContainsCI c1task.title "zzz" = false ∧
    optContainsCI c1task.description "zzz" = false ∧
    (listTasks c1db 1 .MANAGER { search := some "zzz" } 1 10).data = [c1task] ∧
    strContainsCI c1proj.name "zzz" = false ∧
    optContainsCI c1proj.description "zzz" = false ∧
    (listProjects c1db 1 .MANAGER { search := some "zzz" } 1 10).data = [c1proj] ∧
    (buildTaskWhere c1db 1 .MANAGER { search := some "zzz" }).orClause =
      some [.projectIn [10], .assigneeEq 1] ∧
    (buildProjectWhere c1db 1 .MANAGER { search := some "zzz" }).orClause =
      some [.ownerEq 1, .idIn []] := by
  refine ⟨rfl, rfl, rfl, rfl, rfl, rfl, rfl, rfl⟩

def c5task : Task :=
  { id := 1, title := "old title", description := some "d", status := .IN_PROGRESS,
    priority := .HIGH, dueDate := some 5, assigneeId := some 3,
    projectId := 10, labelIds := [8] }

def c5db : DB :=
  { projects := [{ id := 10, name := "P", description := none, ownerId := 1 }]
    tasks := [c5task]
    labels := []
    comments := [] }

/-- C5: updating only the title of task 1 (which has due date 5) keeps
every other supplied-less field — except the due date, which the handler's
`dueDate ? new Date(dueDate) : null` resets to NULL. -/
theorem task_update_omitted_duedate_cleared :
    c5task.dueDate = some 5 ∧
    (updateTask c5db 1 .ADMIN 1 { title := some "renamed" }).1 =
      Outcome.ok { c5task with title := "renamed", dueDate := none } ∧
    (applyTaskUpdate c5task { title := some "renamed" }).description = c5task.description ∧
    (applyTaskUpdate c5task { title := some "renamed" }).status = c5task.status ∧
    (applyTaskUpdate c5task { title := some "renamed" }).priority = c5task.priority ∧
    (applyTaskUpdate c5task { title := some "renamed" }).assigneeId = c5task.assigneeId ∧
    (applyTaskUpdate c5task { title := some "renamed" }).labelIds = c5task.labelIds ∧
    (applyTaskUpdate c5task { title := some "renamed" }).dueDate = none := by
  refine ⟨rfl, rfl, rfl, rfl, rfl, rfl, rfl, rfl⟩

/-! ## Pagination helper lemmas -/

/-- The successive pages of `l` with page size `limit`, `n` pages in all. -/
def pageChunks {α : Type} (limit : Nat) : Nat → List α → List (List α)
  | 0, _ => []
  | n + 1, l => l.take limit :: pageChunks limit n (l.drop limit)

theorem pageChunks_flatten {α : Type} (limit : Nat) :
    ∀ (n : Nat) (l : List α), l.length ≤ n * limit → (pageChunks limit n l).flatten = l := by
  intro n
  induction n with
  | zero =>
    intro l hlen
    have : l = [] := List.length_eq_zero.mp (Nat.le_zero.mp (by simpa using hlen))
    simp [pageChunks, this]
  | succ n ih =>
    intro l hlen
    rw [Nat.succ_mul] at hlen
    have hdrop : (l.drop limit).length ≤ n * limit := by
      rw [List.length_drop]
      omega
    simp only [pageChunks, List.flatten_cons]
    rw [ih (l.drop limit) hdrop, List.take_append_drop]

theorem pageChunks_eq_map {α : Type} (limit : Nat) :
    ∀ (n : Nat) (l : List α),
      pageChunks limit n l = (List.range n).map (fun i => (l.drop (i * limit)).take limit) := by
  intro n
  induction n with
  | zero => intro l; simp [pageChunks]
  | succ n ih =>
    intro l
    rw [List.range_succ_eq_map, List.map_cons, List.map_map]
    simp only [pageChunks, Nat.zero_mul, List.drop_zero]
    refine congrArg₂ _ rfl ?_
    rw [ih (l.drop limit)]
    refine congrArg₂ _ ?_ rfl
    funext i
    simp only [Function.comp]
    rw [List.drop_drop]
    have harith : limit + i * limit = Nat.succ i * limit := by
      rw [Nat.succ_mul, Nat.add_comm]
    rw [harith]

theorem length_le_ceil_mul (total limit : Nat) (hl : 1 ≤ limit) :
    total ≤ (total + limit - 1) / limit * limit := by
  by_contra hc
  push_neg at hc
  have key : (total + limit - 1) / limit + 1 ≤ (total + limit - 1) / limit := by
    rw [Nat.le_div_iff_mul_le hl]
    have expand : ((total + limit - 1) / limit + 1) * limit =
        (total + limit - 1) / limit * limit + limit := by
      rw [Nat.succ_mul]
    omega
  omega

/-- C8: with a limit accepted by the query schema (in [1,100], defaulting
to 10 when absent), the task list reports `total` as the size of the scoped
set, `totalPages` as `⌈total / limit⌉`, and concatenating the data of pages
1 through totalPages reproduces the scoped set exactly. -/
theorem task_list_pagination (db : DB) (uid : Nat) (role : Role) (f : TaskFilters)
    (page : Nat) (limitReq : Option Nat) (limit : Nat)
    (h : parseLimit limitReq = some limit) :
    (1 ≤ limit ∧ limit ≤ 100) ∧
    (limitReq = none → limit = 10) ∧
    (listTasks db uid role f page limit).total = (scopedTasks db uid role f).length ∧
    (listTasks db uid role f page limit).totalPages =
      ((scopedTasks db uid role f).length + limit - 1) / limit ∧
    ((List.range (listTasks db uid role f page limit).totalPages).map
        (fun i => (listTasks db uid role f (i + 1) limit).data)).flatten =
      scopedTasks db uid role f := by
  have hb : (1 ≤ limit ∧ limit ≤ 100) ∧ (limitReq = none → limit = 10) := by
    match limitReq with
    | none =>
      have h10 : limit = 10 := by
        simpa [parseLimit] using h.symm
      exact ⟨by omega, fun _ => h10⟩
    | some n =>
      simp only [parseLimit] at h
      by_cases hn : 1 ≤ n ∧ n ≤ 100
      · rw [if_pos hn] at h
        have : n = limit := by simpa using h
        exact ⟨by omega, by simp⟩
      · rw [if_neg hn] at h
        exact absurd h (by simp)
  refine ⟨hb.1, hb.2, rfl, rfl, ?_⟩
  have hdata : ∀ i : Nat, (listTasks db uid role f (i + 1) limit).data =
      ((scopedTasks db uid role f).drop (i * limit)).take limit := by
    intro i
    simp [listTasks]
  simp only [hdata]
  have hpages : (listTasks db uid role f page limit).totalPages =
      ((scopedTasks db uid role f).length + limit - 1) / limit := rfl
  rw [hpages, ← pageChunks_eq_map]
  exact pageChunks_flatten limit _ _
    (length_le_ceil_mul (scopedTasks db uid role f).length limit hb.1.1)

def c8task (n : Nat) : Task :=
  { id := n, title := "t", description := none, status := .BACKLOG,
    priority := .MEDIUM, dueDate := none, assigneeId := some 1,
    projectId := 10, labelIds := [] }

def c8db : DB :=
  { projects := [{ id := 10, name := "P", description := none, ownerId := 2 }]
    tasks := [c8task 1, c8task 2, c8task 3]
    labels := []
    comments := [] }

/-- C8 witness: member 1 lists tasks with requested limit 2 over a three
task scope: the limit is accepted, total is 3, totalPages is 2, and pages
1 and 2 concatenated give back the whole scoped set. -/
theorem task_list_pagination_witness :
    (1 ≤ 2 ∧ 2 ≤ 100) ∧
    (some 2 = (none : Option Nat) → 2 = 10) ∧
    (listTasks c8db 1 .MEMBER {} 1 2).total = (scopedTasks c8db 1 .MEMBER {}).length ∧
    (listTasks c8db 1 .MEMBER {} 1 2).totalPages =
      ((scopedTasks c8db 1 .MEMBER {}).length + 2 - 1) / 2 ∧
    ((List.range (listTasks c8db 1 .MEMBER {} 1 2).totalPages).map
        (fun i => (listTasks c8db 1 .MEMBER {} (i + 1) 2).data)).flatten =
      scopedTasks c8db 1 .MEMBER {} :=
  task_list_pagination c8db 1 .MEMBER {} 1 (some 2) 2 rfl

end QLXD
